import Mathlib

/-!
Verification development for the tree/element abstraction layer of a
retained-mode scene-tree UI engine (moxie-native).

Embedded from the sources:
  - src/dom/element.rs  : the Element trait, the NodeChild dispatch
    capability, the `children` iterator helper, the NodeChild impls for
    Node<Elt> and for String.
  - src/moxie/elements.rs : the Builder (attr/on/add_child/add_content/build)
    and its memoized finalization.
  - src/dom/elements/app.rs : the App element kind.

The concrete types LayoutOptions, LayoutType, PaintDetails, Node and the
single-slot positional memo cache come from files of this repository (or the
external moxie crate) that are not among the given sources; those are
modelled from the spec, each marked in its doc comment.
-/

namespace MoxieNative

/-- Modelled from the spec: the layout discriminant of `LayoutOptions`
(src/layout.rs is not among the sources). The spec describes it as
"generic-box vs. text-with-content"; the source uses `LayoutType::Text(String)`
for raw text, so the discriminant is a generic box variant or a text variant
carrying the literal string. -/
inductive LayoutType where
  | normal
  | text (content : String)
deriving DecidableEq

/-- Modelled from the spec: `LayoutOptions` (src/layout.rs is not among the
sources) is "a layout discriminant plus inherited/overridable scalar
properties (e.g., text size)". We model the discriminant, the inherited text
size, and two representative overridable scalar properties with defaults, so
that `..Default::default()` in the source translates to the field defaults
below. -/
structure LayoutOptions where
  layout_ty : LayoutType := LayoutType.normal
  text_size : Nat := 16
  width : Option Nat := none
  height : Option Nat := none
deriving DecidableEq

instance : Inhabited LayoutOptions := ⟨{}⟩

/-- Modelled from the spec: `PaintDetails` (src/render.rs is not among the
sources) describes one node's own optional visual contribution; the source
uses its `text` field for literal text content (`PaintDetails { text:
Some(self.clone()), ..Default::default() }`), with the remaining visual
fields defaulted. -/
structure PaintDetails where
  text : Option String := none
  background_color : Option Nat := none
deriving DecidableEq

instance : Inhabited PaintDetails := ⟨{}⟩

/-- Modelled from the spec: `Node` (src/dom/mod.rs is not among the sources)
is "an immutable, structurally-comparable value pairing one element's state
with its ordered children". The Rust type is `Node<Elt>` with children of
type `Vec<Elt::Child>`; here the child type is a second parameter. -/
structure Node (Elt : Type) (Child : Type) where
  element : Elt
  children : List Child
deriving DecidableEq

/-- `Node::new(element, children)` as used by `Builder::build`. -/
def Node.new {Elt Child : Type} (element : Elt) (children : List Child) :
    Node Elt Child :=
  ⟨element, children⟩

/-- The `Element` trait of src/dom/element.rs: per-kind attribute assignment,
layout-option derivation and paint derivation. The Rust default method body
for `paint` returns `None`; that default is the class field default here, so
an instance that does not override `paint` gets the default policy. -/
class Element (Elt : Type) where
  set_attribute : Elt → String → Option String → Elt
  create_layout_opts : Elt → LayoutOptions → LayoutOptions
  paint : Elt → Option PaintDetails := fun _ => none

/-- The `impl NodeChild for Node<Elt>` method `get_child` of
src/dom/element.rs: `self.children().get(child)`, rewrapped as an Option. -/
def Node.get_child {Elt Child : Type} (n : Node Elt Child) (child : Nat) :
    Option Child :=
  match n.children.get? child with
  | some c => some c
  | none => none

/-- The `impl NodeChild for Node<Elt>` method `paint`: a pass-through to
`Element::paint` on the node's element. -/
def Node.paint {Elt Child : Type} [Element Elt] (n : Node Elt Child) :
    Option PaintDetails :=
  Element.paint n.element

/-- The `impl NodeChild for Node<Elt>` method `create_layout_opts`: a
pass-through to `Element::create_layout_opts` on the node's element. -/
def Node.create_layout_opts {Elt Child : Type} [Element Elt]
    (n : Node Elt Child) (parent_opts : LayoutOptions) : LayoutOptions :=
  Element.create_layout_opts n.element parent_opts

/-- The `impl NodeChild for String` method `paint` of src/dom/element.rs:
`Some(PaintDetails { text: Some(self.clone()), ..Default::default() })`. -/
def String.paint (s : String) : Option PaintDetails :=
  some { text := some s }

/-- The `impl NodeChild for String` method `create_layout_opts` of
src/dom/element.rs: `LayoutOptions { layout_ty: LayoutType::Text(self.clone()),
text_size: parent_opts.text_size, ..Default::default() }`. -/
def String.create_layout_opts (s : String) (parent_opts : LayoutOptions) :
    LayoutOptions :=
  { layout_ty := LayoutType.text s
    text_size := parent_opts.text_size }

/-- The `impl NodeChild for String` method `get_child` of
src/dom/element.rs: always `None`. The result type is polymorphic because the
Rust return type is a type-erased `Option<&dyn NodeChild>` and the body never
produces a value. -/
def String.get_child {α : Type} (_s : String) (_child : Nat) : Option α :=
  none

/-- The `App` element kind of src/dom/elements/app.rs: no attribute fields. -/
structure App where
deriving DecidableEq

/-- The `impl Element for App` of src/dom/elements/app.rs: `App` does not
override `paint`, so it receives the trait's default. `App` declares no
attributes, so attribute assignment leaves its (empty) state unchanged, and
its layout derivation is modelled from the spec as passing the parent context
through (src/dom/elements/app.rs predates the trait shape in
src/dom/element.rs and implements neither method explicitly). -/
instance : Element App where
  set_attribute a _ _ := a
  create_layout_opts _ parent_opts := parent_opts

/-- A type-erased dispatchable child, standing for `dyn NodeChild`. Exactly
two impls of `NodeChild` exist in src/dom/element.rs — `Node<Elt>` for an
element kind `Elt`, and `String` — so the erased value is either a node,
carrying its element's partially applied `create_layout_opts` and `paint`
behavior together with its erased children, or a raw-text leaf. -/
inductive DynChild where
  | node (clo : LayoutOptions → LayoutOptions) (pnt : Option PaintDetails)
      (children : List DynChild)
  | text (s : String)

/-- Erasure of a typed `Node` to a `DynChild`, given an erasure of its
children (in Rust this is the implicit unsized coercion to `&dyn NodeChild`). -/
def Node.erase {Elt Child : Type} [Element Elt] (n : Node Elt Child)
    (eraseChild : Child → DynChild) : DynChild :=
  DynChild.node (Element.create_layout_opts n.element) (Element.paint n.element)
    (n.children.map eraseChild)

/-- `get_child` dispatched through the erased child: the `Node` impl returns
`self.children().get(child)`, the `String` impl returns `None`. -/
def DynChild.get_child : DynChild → Nat → Option DynChild
  | DynChild.node _ _ cs, i => cs.get? i
  | DynChild.text _, _ => none

/-- `create_layout_opts` dispatched through the erased child. -/
def DynChild.create_layout_opts : DynChild → LayoutOptions → LayoutOptions
  | DynChild.node f _ _, parent_opts => f parent_opts
  | DynChild.text s, parent_opts => String.create_layout_opts s parent_opts

/-- `paint` dispatched through the erased child. -/
def DynChild.paint : DynChild → Option PaintDetails
  | DynChild.node _ p _ => p
  | DynChild.text s => String.paint s

/-- One step of the iterator inside `children` (src/dom/element.rs): `next`
reads `get_child` at the current index and increments the index, yielding
the prefix of children before the first `None`. `fuel` bounds the number of
`next` calls so the unfolding is a total function; the traversal theorems
show the output is already stable once `fuel` reaches the child count. -/
def childrenFrom (node : DynChild) : Nat → Nat → List DynChild
  | 0, _ => []
  | fuel + 1, index =>
    match node.get_child index with
    | some child => child :: childrenFrom node fuel (index + 1)
    | none => []

/-- The `children` helper of src/dom/element.rs: iterate `get_child` with
increasing indices starting at 0 until it returns nothing. -/
def children (node : DynChild) (fuel : Nat) : List DynChild :=
  childrenFrom node fuel 0

/-- A tree of computed `LayoutOptions`, one entry per node, the same shape as
the `DynChild` tree: the output of the top-down layout propagation pass
(spec section 4.3). -/
inductive OptsTree where
  | mk (opts : LayoutOptions) (children : List OptsTree)

/-- The computed options at the root of an `OptsTree`. -/
def OptsTree.opts : OptsTree → LayoutOptions
  | OptsTree.mk o _ => o

/-- The child subtrees of an `OptsTree`. -/
def OptsTree.children : OptsTree → List OptsTree
  | OptsTree.mk _ cs => cs

mutual

/-- The top-down layout propagation pass of spec section 4.3: compute this
node's options via `create_layout_opts(parent_opts)`, then recurse into each
child with the freshly computed value as that child's parent options. -/
def propagate (parent_opts : LayoutOptions) : DynChild → OptsTree
  | DynChild.node f _ cs =>
    OptsTree.mk (f parent_opts) (propagateList (f parent_opts) cs)
  | DynChild.text s =>
    OptsTree.mk (String.create_layout_opts s parent_opts) []

/-- Propagation over a child list, each child receiving the parent's freshly
computed options. -/
def propagateList (opts : LayoutOptions) : List DynChild → List OptsTree
  | [] => []
  | c :: cs => propagate opts c :: propagateList opts cs

end

/-- The `Builder` of src/moxie/elements.rs: one element state and an ordered
list of not-yet-finalized children. -/
structure Builder (Elt : Type) (Child : Type) where
  element : Elt
  children : List Child

/-- `Builder::new`: default element state, no children. -/
def Builder.new {Elt Child : Type} [Inhabited Elt] : Builder Elt Child :=
  ⟨default, []⟩

/-- `Builder::attr`: decode and set one attribute on the element state. -/
def Builder.attr {Elt Child : Type} [Element Elt] (b : Builder Elt Child)
    (key : String) (value : String) : Builder Elt Child :=
  { b with element := Element.set_attribute b.element key (some value) }

/-- `Builder::add_child` (src/moxie/elements.rs line 51): push the converted
child onto the builder's children vector. -/
def Builder.add_child {Elt Child α : Type} (b : Builder Elt Child)
    (into : α → Child) (child : α) : Builder Elt Child :=
  { b with children := b.children ++ [into child] }

/-- `Builder::add_content` (src/moxie/elements.rs line 57): push the
converted child onto the builder's children vector. -/
def Builder.add_content {Elt Child α : Type} (b : Builder Elt Child)
    (into : α → Child) (child : α) : Builder Elt Child :=
  { b with children := b.children ++ [into child] }

/-- The state of one positional memo slot across passes: the key and value
stored by the immediately preceding construction pass at this logical tree
position, if any. -/
abbrev MemoSlot (K V : Type) : Type := Option (K × V)

/-- Modelled from the spec: the single-slot positional cache behind the
external moxie crate's `memo!` (spec section 4.5). The stored key from the
preceding pass is compared by structural equality with the new key; on a hit
the prior value is returned unchanged and the slot is untouched; otherwise a
fresh value is constructed and stored for the next pass. The returned flag
records whether a fresh value was constructed on this call. -/
def memo {K V : Type} [DecidableEq K] (slot : MemoSlot K V) (key : K)
    (f : K → V) : V × MemoSlot K V × Bool :=
  match slot with
  | some (k, v) =>
    if k = key then (v, some (k, v), false)
    else (f key, some (key, f key), true)
  | none => (f key, some (key, f key), true)

/-- `Builder::build` (src/moxie/elements.rs lines 64-72): memoize on the key
`(self.element, self.children)`, constructing `Node::new(elt.clone(),
children.clone())` on a miss. The slot threading makes the per-position cache
of the surrounding incremental-recomputation context explicit. -/
def Builder.build {Elt Child : Type} [DecidableEq Elt] [DecidableEq Child]
    (b : Builder Elt Child)
    (slot : MemoSlot (Elt × List Child) (Node Elt Child)) :
    Node Elt Child × MemoSlot (Elt × List Child) (Node Elt Child) × Bool :=
  memo slot (b.element, b.children) (fun k => Node.new k.1 k.2)

/-! Helper lemmas shared by the claim theorems. -/

/-- Iterating `get_child` on a node from index `i` with enough fuel yields
exactly the suffix of the children list from `i`. -/
theorem childrenFrom_node_eq_drop (f : LayoutOptions → LayoutOptions)
    (p : Option PaintDetails) (cs : List DynChild) :
    ∀ (fuel i : Nat), cs.length ≤ fuel + i →
      childrenFrom (DynChild.node f p cs) fuel i = cs.drop i := by
  intro fuel
  induction fuel with
  | zero =>
    intro i h
    simp only [Nat.zero_add] at h
    simp [childrenFrom, List.drop_eq_nil_of_le h]
  | succ fuel ih =>
    intro i h
    by_cases hi : i < cs.length
    · have hg : cs.get? i = some (cs.get ⟨i, hi⟩) := List.get?_eq_get hi
      simp only [childrenFrom, DynChild.get_child, hg]
      rw [ih (i + 1) (by omega)]
      exact List.get_cons_drop cs ⟨i, hi⟩
    · have hle : cs.length ≤ i := Nat.le_of_not_lt hi
      have hg : cs.get? i = none := List.get?_eq_none.mpr hle
      simp only [childrenFrom, DynChild.get_child, hg]
      exact (List.drop_eq_nil_of_le hle).symm

/-- Propagation over a child list is an elementwise map of propagation with
the parent's computed options. -/
theorem propagateList_eq_map (o : LayoutOptions) (cs : List DynChild) :
    propagateList o cs = cs.map (propagate o) := by
  induction cs with
  | nil => rfl
  | cons c cs ih => simp [propagateList, ih]

/-! The claim theorems. -/

/-- Claim C1, memo soundness at build: for builder states with equal element
state and equal children sequence, finalizing with `build` on two consecutive
passes at the same position yields the prior Node unchanged — same stored
value returned, the slot untouched, and no fresh Node constructed on the
second pass. -/
theorem build_memo_sound {Elt Child : Type} [DecidableEq Elt]
    [DecidableEq Child] (b1 b2 : Builder Elt Child)
    (s0 : MemoSlot (Elt × List Child) (Node Elt Child))
    (helt : b2.element = b1.element) (hch : b2.children = b1.children) :
    (b2.build (b1.build s0).2.1).1 = (b1.build s0).1 ∧
    (b2.build (b1.build s0).2.1).2.1 = (b1.build s0).2.1 ∧
    (b2.build (b1.build s0).2.1).2.2 = false := by
  have hkey : (b2.element, b2.children) = (b1.element, b1.children) := by
    rw [helt, hch]
  rcases s0 with _ | ⟨k, v⟩
  · simp [Builder.build, memo, hkey]
  · by_cases hk : k = (b1.element, b1.children)
    · simp [Builder.build, memo, hk, hkey]
    · simp [Builder.build, memo, hk, hkey]

/-- Witness for C1: two identical builds at one position, starting from an
empty slot; the second build is a memo hit. -/
theorem build_memo_sound_witness :
    ((Builder.mk App.mk ["a"] : Builder App String).build
        (((Builder.mk App.mk ["a"] : Builder App String).build none).2.1)).1 =
      (((Builder.mk App.mk ["a"] : Builder App String).build none)).1 ∧
    ((Builder.mk App.mk ["a"] : Builder App String).build
        (((Builder.mk App.mk ["a"] : Builder App String).build none).2.1)).2.1 =
      (((Builder.mk App.mk ["a"] : Builder App String).build none)).2.1 ∧
    ((Builder.mk App.mk ["a"] : Builder App String).build
        (((Builder.mk App.mk ["a"] : Builder App String).build none).2.1)).2.2 =
      false :=
  build_memo_sound (Builder.mk App.mk ["a"]) (Builder.mk App.mk ["a"]) none
    rfl rfl

/-- Claim C2, memo correctness at build: if no prior value exists at this
position, or the stored key differs from the builder's (element, children)
pair, `build` constructs a fresh Node whose element state and children equal
the new builder contents, and stores it for the next pass. -/
theorem build_memo_fresh {Elt Child : Type} [DecidableEq Elt]
    [DecidableEq Child] (b : Builder Elt Child)
    (slot : MemoSlot (Elt × List Child) (Node Elt Child))
    (hmiss : ∀ kv : (Elt × List Child) × Node Elt Child,
      slot = some kv → kv.1 ≠ (b.element, b.children)) :
    (b.build slot).1 = Node.new b.element b.children ∧
    (b.build slot).1.element = b.element ∧
    (b.build slot).1.children = b.children ∧
    (b.build slot).2.2 = true ∧
    (b.build slot).2.1 =
      some ((b.element, b.children), Node.new b.element b.children) := by
  rcases slot with _ | ⟨k, v⟩
  · exact ⟨rfl, rfl, rfl, rfl, rfl⟩
  · have hk : k ≠ (b.element, b.children) := hmiss (k, v) rfl
    simp [Builder.build, memo, hk, Node.new]

/-- Witness for C2: the slot stores a Node built from children `["a"]`, the
builder now carries `["b"]`; the build is a memo miss producing a fresh Node
with the new contents. -/
theorem build_memo_fresh_witness :
    ((Builder.mk App.mk ["b"] : Builder App String).build
        (some ((App.mk, ["a"]), Node.new App.mk ["a"]))).1 =
      Node.new App.mk ["b"] ∧
    ((Builder.mk App.mk ["b"] : Builder App String).build
        (some ((App.mk, ["a"]), Node.new App.mk ["a"]))).1.element = App.mk ∧
    ((Builder.mk App.mk ["b"] : Builder App String).build
        (some ((App.mk, ["a"]), Node.new App.mk ["a"]))).1.children = ["b"] ∧
    ((Builder.mk App.mk ["b"] : Builder App String).build
        (some ((App.mk, ["a"]), Node.new App.mk ["a"]))).2.2 = true ∧
    ((Builder.mk App.mk ["b"] : Builder App String).build
        (some ((App.mk, ["a"]), Node.new App.mk ["a"]))).2.1 =
      some ((App.mk, ["b"]), Node.new App.mk ["b"]) :=
  build_memo_fresh (Builder.mk App.mk ["b"])
    (some ((App.mk, ["a"]), Node.new App.mk ["a"]))
    (by intro kv h; injection h with h2; subst h2; decide)

/-- Claim C3, text leaf behavior: a raw-text child yields no child at any
index, its layout options carry the Text discriminant with the string and the
parent's text size, and its paint description carries the literal string. -/
theorem string_text_leaf (s : String) (i : Nat) (p : LayoutOptions) :
    String.get_child (α := DynChild) s i = none ∧
    (String.create_layout_opts s p).layout_ty = LayoutType.text s ∧
    (String.create_layout_opts s p).text_size = p.text_size ∧
    ∃ d, String.paint s = some d ∧ d.text = some s :=
  ⟨rfl, rfl, rfl, ⟨{ text := some s }, rfl, rfl⟩⟩

/-- Claim C4, traversal completeness: for a node with k children, the derived
sequence produced by the `children` iterator yields exactly those k children,
in insertion order, and the output is stable for any fuel of at least k, so
the iteration terminates after the k children. -/
theorem traversal_completeness (f : LayoutOptions → LayoutOptions)
    (p : Option PaintDetails) (cs : List DynChild) (fuel : Nat)
    (h : cs.length ≤ fuel) :
    children (DynChild.node f p cs) fuel = cs ∧
    (children (DynChild.node f p cs) fuel).length = cs.length := by
  have hc : children (DynChild.node f p cs) fuel = cs := by
    have hd := childrenFrom_node_eq_drop f p cs fuel 0 (by omega)
    simpa [children] using hd
  exact ⟨hc, by rw [hc]⟩

/-- Witness for C4: a node with two text children, traversed with fuel 2. -/
theorem traversal_completeness_witness :
    children (DynChild.node id none [DynChild.text "a", DynChild.text "b"]) 2 =
      [DynChild.text "a", DynChild.text "b"] ∧
    (children
        (DynChild.node id none [DynChild.text "a", DynChild.text "b"]) 2).length =
      ([DynChild.text "a", DynChild.text "b"] : List DynChild).length :=
  traversal_completeness id none [DynChild.text "a", DynChild.text "b"] 2
    (by decide)

/-- Claim C5, layout propagation determinism and locality: propagation is a
pure function (two runs on the same tree and initial options coincide), a
node's computed options are `create_layout_opts` of its own state applied to
its parent's options, and the propagated subtree at child position i depends
only on that child and the parent's freshly computed options — replacing the
siblings leaves it unchanged. -/
theorem layout_propagation_deterministic (o : LayoutOptions)
    (f : LayoutOptions → LayoutOptions) (p : Option PaintDetails)
    (cs : List DynChild) (t : DynChild) (i : Nat) :
    propagate o t = propagate o t ∧
    (propagate o (DynChild.node f p cs)).opts = f o ∧
    (propagate o (DynChild.node f p cs)).children.get? i =
      (cs.get? i).map (propagate (f o)) ∧
    ∀ cs2 : List DynChild, cs.get? i = cs2.get? i →
      (propagate o (DynChild.node f p cs)).children.get? i =
        (propagate o (DynChild.node f p cs2)).children.get? i := by
  refine ⟨rfl, rfl, ?_, ?_⟩
  · simp [propagate, OptsTree.children, propagateList_eq_map, List.get?_map]
  · intro cs2 h
    simp only [List.get?_eq_getElem?] at h
    simp [propagate, OptsTree.children, propagateList_eq_map, List.get?_map, h]

/-- Witness for C5: the propagated entry at child position 0 is unchanged
when a second sibling is appended. -/
theorem layout_propagation_deterministic_witness :
    (propagate (default : LayoutOptions)
          (DynChild.node id none [DynChild.text "a"])).children.get? 0 =
      (propagate (default : LayoutOptions)
          (DynChild.node id none
            [DynChild.text "a", DynChild.text "b"])).children.get? 0 :=
  (layout_propagation_deterministic (default : LayoutOptions) id none
      [DynChild.text "a"] (DynChild.text "a") 0).2.2.2
    [DynChild.text "a", DynChild.text "b"] rfl

/-- Claim C6, out-of-range child access is not an error: on a Node,
`get_child` with an index at or beyond the child count returns none, and with
an in-range index returns the child at that zero-based position; on a text
leaf it returns none at every index. -/
theorem get_child_out_of_range {Elt Child : Type} (n : Node Elt Child)
    (i : Nat) (s : String) (j : Nat) :
    (n.children.length ≤ i → n.get_child i = none) ∧
    (∀ h : i < n.children.length,
      n.get_child i = some (n.children.get ⟨i, h⟩)) ∧
    String.get_child (α := DynChild) s j = none := by
  refine ⟨?_, ?_, rfl⟩
  · intro h
    unfold Node.get_child
    rw [List.get?_eq_none.mpr h]
  · intro h
    unfold Node.get_child
    rw [List.get?_eq_get h]

/-- Witness for C6: a two-child node queried past the end and at index 0. -/
theorem get_child_out_of_range_witness :
    (Node.mk App.mk ["a", "b"] : Node App String).get_child 5 = none ∧
    (Node.mk App.mk ["a", "b"] : Node App String).get_child 0 = some "a" := by
  constructor
  · exact (get_child_out_of_range (Node.mk App.mk ["a", "b"] : Node App String)
      5 "t" 0).1 (by decide)
  · have h := (get_child_out_of_range
      (Node.mk App.mk ["a", "b"] : Node App String) 0 "t" 0).2.1 (by decide)
    simpa using h

/-- Claim C7, paint absence default: the App element kind does not override
`paint`, so for every attribute state it yields no PaintDetails, both
directly and through the Node dispatch pass-through. -/
theorem app_paint_absent {Child : Type} (a : App) (cs : List Child) :
    Element.paint a = none ∧ (Node.mk a cs : Node App Child).paint = none :=
  ⟨rfl, rfl⟩

/-- Claim C9, add_child and add_content coincide: each appends exactly the
one converted child to the end of the same children sequence, leaving the
element state untouched, and the two resulting builder states are equal. -/
theorem add_child_eq_add_content {Elt Child α : Type} (b : Builder Elt Child)
    (into : α → Child) (x : α) :
    b.add_child into x = b.add_content into x ∧
    (b.add_child into x).element = b.element ∧
    (b.add_child into x).children = b.children ++ [into x] :=
  ⟨rfl, rfl, rfl⟩

/-- Claim C10, a raw-text child inherits only the text size: every field of
its layout options other than the layout discriminant and text_size equals
the default, for every parent options value. -/
theorem text_inherits_only_text_size (s : String) (p : LayoutOptions) :
    (String.create_layout_opts s p).width = (default : LayoutOptions).width ∧
    (String.create_layout_opts s p).height =
      (default : LayoutOptions).height ∧
    (String.create_layout_opts s p).layout_ty = LayoutType.text s ∧
    (String.create_layout_opts s p).text_size = p.text_size :=
  ⟨rfl, rfl, rfl, rfl⟩

end MoxieNative
